import Mathlib

/-!
Verification of the howufeel-backend mail subsystem.

This file gives a shallow embedding, in Lean 4, of the two pieces of real
logic in the repository:

* `TemplateProcessor.process` (src/services/mailService.ts, lines 30-57):
  the mustache-like template renderer based on four regex passes;
* the fan-out/aggregation logic of `GroupAnnouncement.handle`
  (src/endpoints/mail/groupAnnouncement part of mailValidate.ts,
  lines 166-223);
* `TemplateService.loadTemplate` / `readTemplateFile`
  (src/services/templateService.ts).

JavaScript strings are modelled as `List Char`; the JS regexes used by the
source are simple enough that each one is modelled by an explicit
character-level scanner with exactly the matching semantics of the regex
(leftmost match, lazy body, global continuation after each match).
Machine-level details that the source semantics depend on (JS truthiness
coercion, `String(value || '')`, replacement-string `$`-escapes of
`String.prototype.replace`) are modelled explicitly below.
-/

/-- The left-brace character, written via its code point so that template
markers can be built without raw braces in the source text. -/
def lbrace : Char := Char.ofNat 123

/-- The right-brace character. -/
def rbrace : Char := Char.ofNat 125

/-- A scalar JavaScript value as it can appear in the `Record<string, any>`
data mapping handed to `TemplateProcessor.process`.  Numbers are modelled by
`Int` (the values used by the system are the 0-10 rating, an integer) plus an
explicit `vNaN`; `vNull` and `vUndef` model `null` and `undefined`. -/
inductive JValue where
  | vStr : String → JValue
  | vInt : Int → JValue
  | vNaN : JValue
  | vBool : Bool → JValue
  | vNull : JValue
  | vUndef : JValue
deriving DecidableEq, Repr

/-- JavaScript loose truthiness: `undefined`, `null`, `false`, `0`, `NaN` and
the empty string are falsy, everything else is truthy.  The source's test
`value && value !== ''` (mailService.ts line 37) is exactly this coercion,
since the extra strict comparison `value !== ''` only excludes the empty
string, which is already falsy. -/
def jsTruthy : JValue → Bool
  | .vStr s => s ≠ ""
  | .vInt n => n ≠ 0
  | .vNaN => false
  | .vBool b => b
  | .vNull => false
  | .vUndef => false

/-- JavaScript `String(v)` on a scalar value. -/
def jsToString : JValue → String
  | .vStr s => s
  | .vInt n => toString n
  | .vNaN => "NaN"
  | .vBool b => if b then "true" else "false"
  | .vNull => "null"
  | .vUndef => "undefined"

/-- The string actually substituted by the source's variable pass:
`String(value || '')` (mailService.ts line 50).  `value || ''` evaluates to
`''` for every falsy value, so falsy values substitute as the empty string. -/
def strOfJs (v : JValue) : String :=
  if jsTruthy v then jsToString v else ""

/-- First occurrence of the literal pattern `pat` in `s`: returns the part
before the match and the part after it.  This is the matching behaviour of a
JS regex that is a literal string of characters. -/
def findSub (pat : List Char) : List Char → Option (List Char × List Char)
  | [] => if pat = [] then some ([], []) else none
  | c :: rest =>
    if pat.isPrefixOf (c :: rest) then some ([], (c :: rest).drop pat.length)
    else
      match findSub pat rest with
      | some (pre, post) => some (c :: pre, post)
      | none => none

theorem findSub_eq (pat : List Char) :
    ∀ (s pre post : List Char), findSub pat s = some (pre, post) →
      s = pre ++ pat ++ post := by
  intro s
  induction s with
  | nil =>
    intro pre post h
    simp only [findSub] at h
    by_cases hp : pat = []
    · simp [hp] at h ⊢
      obtain ⟨h1, h2⟩ := h
      subst h1; subst h2
      exact ⟨rfl, rfl⟩
    · simp [hp] at h
  | cons c rest ih =>
    intro pre post h
    simp only [findSub] at h
    by_cases hp : pat.isPrefixOf (c :: rest)
    · simp only [hp, if_true] at h
      obtain ⟨h1, h2⟩ := Prod.mk.injEq .. ▸ (Option.some.injEq .. ▸ h)
      rw [ List.isPrefixOf_iff_prefix] at hp
      obtain ⟨t, ht⟩ := hp
      subst h1
      rw [← ht, ← h2, ← ht]
      simp [List.drop_left]
    · simp only [hp, if_false] at h
      cases hrec : findSub pat rest with
      | none => rw [hrec] at h; exact absurd h (by simp)
      | some pr =>
        obtain ⟨pre', post'⟩ := pr
        rw [hrec] at h
        simp at h
        obtain ⟨h1, h2⟩ := h
        have := ih pre' post' hrec
        subst h2
        rw [← h1]
        simp [this]

/-- Conditional-block opening marker for a key, the literal characters
of the pattern `\x7b\x7b#key\x7d\x7d`. -/
def condOpen (key : List Char) : List Char :=
  lbrace :: lbrace :: '#' :: (key ++ [rbrace, rbrace])

/-- Conditional-block closing marker for a key, the literal characters
of the pattern `\x7b\x7b/key\x7d\x7d`. -/
def condClose (key : List Char) : List Char :=
  lbrace :: lbrace :: '/' :: (key ++ [rbrace, rbrace])

/-- Variable marker for a key, the literal characters of `\x7b\x7bkey\x7d\x7d`. -/
def varMarker (key : List Char) : List Char :=
  lbrace :: lbrace :: (key ++ [rbrace, rbrace])

/-- JS regex syntax characters.  A key made only of other characters turns
into a regex that matches the key literally. -/
def regexMetaChar (c : Char) : Bool :=
  ['\\', '^', '$', '.', '|', '?', '*', '+', '(', ')', '[', ']', lbrace, rbrace].contains c

/-- Is the string a decimal-quantifier body (`123`, `12,`, `1,2`)?  Such a
key `k` would make the constructed pattern `\x7b\x7bk\x7d\x7d` contain a valid
quantifier `\x7bk\x7d` applied to the second brace, so the pattern would no
longer match the marker literally. -/
def quantKey (k : String) : Bool :=
  let l := k.toList
  let ds := l.takeWhile Char.isDigit
  let rest := l.dropWhile Char.isDigit
  !ds.isEmpty && (rest.isEmpty || (rest.head? = some ',' && (rest.drop 1).all Char.isDigit))

/-- A key is regex-literal ("name safe") when every constructed pattern
`\x7b\x7b#key\x7d\x7d...`, `\x7b\x7bkey\x7d\x7d` is a valid JS regex matching
the marker text literally: no regex syntax character and not a quantifier
body.  For other keys the JS `new RegExp(...)` calls of the source either
throw a `SyntaxError` (e.g. key `(`) or compile to a non-literal pattern;
the model below conservatively reports a pattern-construction error for all
of them (mailService.ts lines 35 and 49 construct the patterns by splicing
the raw key). -/
def nameSafe (k : String) : Bool :=
  k.toList.all (fun c => !regexMetaChar c) && !quantKey k

/-- `GetSubstitution` of JS `String.prototype.replace` for a replacement
STRING and a pattern with no capture groups: `$$` gives `$`, `$&` the matched
text, a backquoted dollar the part of the subject before the match, a
dollar-apostrophe the part after it; any other `$`-sequence (including `$1`,
since the pattern has no groups) is kept literally.  `before`/`matched`/
`after` are relative to the whole subject string of the current pass. -/
def expandRepl (before matched after : List Char) : List Char → List Char
  | [] => []
  | c :: rest =>
    if c = '$' then
      match rest with
      | [] => ['$']
      | d :: t =>
        if d = '$' then '$' :: expandRepl before matched after t
        else if d = '&' then matched ++ expandRepl before matched after t
        else if d = Char.ofNat 96 then before ++ expandRepl before matched after t
        else if d = Char.ofNat 39 then after ++ expandRepl before matched after t
        else '$' :: d :: expandRepl before matched after t
    else c :: expandRepl before matched after rest

/-- One global-replace pass of the source's conditional regex
`\x7b\x7b#key\x7d\x7d([\s\S]*?)\x7b\x7b/key\x7d\x7d` (mailService.ts lines
35-41) for a regex-literal key: find the leftmost opening marker, the lazy
body runs to the first closing marker after it, the whole block is replaced
by its body (replacement `$1`, when the value is truthy) or by nothing, and
scanning continues after the match, as the `g` flag does.  If the leftmost
opening marker has no closing marker after it the regex has no match at all
(any later opening marker would need a closing marker even further right),
so the string is returned unchanged.  Recursion is on explicit fuel;
`length s + 1` steps always suffice because every match consumes at least
the two markers. -/
def condPassFuel (key : List Char) (keep : Bool) : Nat → List Char → List Char
  | 0, s => s
  | fuel + 1, s =>
    match findSub (condOpen key) s with
    | none => s
    | some (pre, rest) =>
      match findSub (condClose key) rest with
      | none => s
      | some (body, rest2) =>
        pre ++ (if keep then body else []) ++ condPassFuel key keep fuel rest2

/-- The conditional pass for one key with sufficient fuel. -/
def condPass (key : List Char) (keep : Bool) (s : List Char) : List Char :=
  condPassFuel key keep (s.length + 1) s

/-- Parse a conditional marker `\x7b\x7btag NAME\x7d\x7d` (with `tag` = `#`
or `/`, NAME a nonempty run of non-`\x7d` characters, written without the
space) at the head of the list, exactly as the regex fragment
`\x7b\x7btag[^\x7d]+\x7d\x7d` matches there: `[^\x7d]+` is greedy but can
never include `\x7d`, so it must match the maximal run and be followed
immediately by two closing braces.  Returns the rest after the marker. -/
def markerTail (rest : List Char) : Option (List Char) :=
  match rest.takeWhile (fun ch => ch ≠ rbrace) with
  | [] => none
  | _ :: _ =>
    match rest.dropWhile (fun ch => ch ≠ rbrace) with
    | d :: e :: r => if d = rbrace ∧ e = rbrace then some r else none
    | _ => none

def tokAt (tag : Char) : List Char → Option (List Char)
  | a :: b :: c :: rest =>
    if a = lbrace ∧ b = lbrace ∧ c = tag then markerTail rest else none
  | _ => none

/-- Leftmost position in `s` where `tok` parses a marker: returns the part
before the marker and the rest after it.  This is how the regex engine
scans candidate start positions left to right. -/
def scanTok (tok : List Char → Option (List Char)) :
    List Char → Option (List Char × List Char)
  | [] =>
    match tok [] with
    | some r => some ([], r)
    | none => none
  | c :: rest =>
    match tok (c :: rest) with
    | some r => some ([], r)
    | none =>
      match scanTok tok rest with
      | some (pre, post) => some (c :: pre, post)
      | none => none

/-- The source's cleanup pass for leftover conditional blocks
(mailService.ts line 45): global replace of
`\x7b\x7b#[^\x7d]+\x7d\x7d[\s\S]*?\x7b\x7b/[^\x7d]+\x7d\x7d` by the empty
string.  Leftmost opening marker, lazy body up to the first closing marker,
continue after the match. -/
def cleanupCondFuel : Nat → List Char → List Char
  | 0, s => s
  | fuel + 1, s =>
    match scanTok (tokAt '#') s with
    | none => s
    | some (pre, rest) =>
      match scanTok (tokAt '/') rest with
      | none => s
      | some (_, rest2) => pre ++ cleanupCondFuel fuel rest2

/-- Cleanup of leftover conditional blocks with sufficient fuel. -/
def cleanupCond (s : List Char) : List Char :=
  cleanupCondFuel (s.length + 1) s

/-- Parse a variable marker `\x7b\x7bNAME\x7d\x7d` at the head of the list,
as the regex fragment `\x7b\x7b[^\x7d]+\x7d\x7d` matches there. -/
def varTokAt : List Char → Option (List Char)
  | a :: b :: rest =>
    if a = lbrace ∧ b = lbrace then markerTail rest else none
  | _ => none

/-- The source's final cleanup pass (mailService.ts line 54): global replace
of `\x7b\x7b[^\x7d]+\x7d\x7d` by the empty string. -/
def cleanupVarsFuel : Nat → List Char → List Char
  | 0, s => s
  | fuel + 1, s =>
    match scanTok varTokAt s with
    | none => s
    | some (pre, rest) => pre ++ cleanupVarsFuel fuel rest

/-- Final variable cleanup with sufficient fuel. -/
def cleanupVars (s : List Char) : List Char :=
  cleanupVarsFuel (s.length + 1) s

/-- One global-replace pass of the source's variable regex
`\x7b\x7bkey\x7d\x7d` with the replacement STRING `String(value || '')`
(mailService.ts lines 48-51) for a regex-literal key.  The replacement
string goes through `expandRepl` (JS interprets `$`-escapes in a string
replacement); `done` tracks the part of the subject already scanned, which
the backquote-dollar escape needs. -/
def varPassFuel (key repl : List Char) : Nat → List Char → List Char → List Char
  | 0, _, s => s
  | fuel + 1, done, s =>
    match findSub (varMarker key) s with
    | none => s
    | some (a, b) =>
      a ++ expandRepl (done ++ a) (varMarker key) b repl ++
        varPassFuel key repl fuel (done ++ a ++ varMarker key) b

/-- The variable pass for one key with sufficient fuel. -/
def varPass (key repl : List Char) (s : List Char) : List Char :=
  varPassFuel key repl (s.length + 1) [] s

/-- Pass 1 of `TemplateProcessor.process` (mailService.ts lines 34-42):
`Object.entries(data).forEach` builds, for each key, the conditional regex
and replaces every block with its body (`$1`) when `value && value !== ''`
holds, and with the empty string otherwise.  A key that is not regex-literal
makes `new RegExp` misbehave; the model reports it as an error (for keys
with unbalanced regex syntax, such as `(`, the real constructor throws a
`SyntaxError` at this point). -/
def condAll : List (String × JValue) → List Char → Except String (List Char)
  | [], s => .ok s
  | (k, v) :: rest, s =>
    if nameSafe k then condAll rest (condPass k.toList (jsTruthy v) s)
    else .error ("Invalid regular expression constructed from key: " ++ k)

/-- Pass 3 of `TemplateProcessor.process` (mailService.ts lines 48-51):
for each key replace every occurrence of its variable marker with
`String(value || '')`. -/
def varAll : List (String × JValue) → List Char → Except String (List Char)
  | [], s => .ok s
  | (k, v) :: rest, s =>
    if nameSafe k then varAll rest (varPass k.toList (strOfJs v).toList s)
    else .error ("Invalid regular expression constructed from key: " ++ k)

namespace TemplateProcessor

/-- `TemplateProcessor.process` (mailService.ts lines 30-57).  The data
mapping is the entry list of the JS object, in `Object.entries` order.
The four passes, in source order: per-key conditional blocks, cleanup of
remaining conditional blocks, per-key variable substitution, cleanup of
remaining variable markers.  The result is `Except` because the raw keys are
spliced into `new RegExp` patterns, which throws on invalid regex syntax. -/
def process (template : String) (data : List (String × JValue)) :
    Except String String :=
  match condAll data template.toList with
  | .error e => .error e
  | .ok s1 =>
    match varAll data (cleanupCond s1) with
    | .error e => .error e
    | .ok s3 => .ok (String.mk (cleanupVars s3))

end TemplateProcessor

deriving instance DecidableEq for Except

/-- Spec section 8, "Falsy removes block": a key bound to the empty string
removes its conditional block. -/
theorem spec_example_falsy_removes_block :
    TemplateProcessor.process
      "Hello \x7b\x7bname\x7d\x7d! \x7b\x7b#note\x7d\x7dNote: \x7b\x7bnote\x7d\x7d\x7b\x7b/note\x7d\x7d"
      [("name", .vStr "John"), ("note", .vStr "")] = .ok "Hello John! " := by
  decide

/-- Spec section 8, "Truthy keeps block, substitutes inside". -/
theorem spec_example_truthy_keeps_block :
    TemplateProcessor.process
      "Hello \x7b\x7bname\x7d\x7d! \x7b\x7b#note\x7d\x7dNote: \x7b\x7bnote\x7d\x7d\x7b\x7b/note\x7d\x7d"
      [("name", .vStr "John"), ("note", .vStr "Important message")] =
      .ok "Hello John! Note: Important message" := by
  decide

/-- Spec section 8, "Missing variable blanks, not literal". -/
theorem spec_example_missing_variable_blank :
    TemplateProcessor.process
      "Hello \x7b\x7bname\x7d\x7d, rating: \x7b\x7brating\x7d\x7d"
      [("name", .vStr "John")] = .ok "Hello John, rating: " := by
  decide

/-- Spec section 8, "Unresolved conditional stripped entirely". -/
theorem spec_example_unresolved_conditional_stripped :
    TemplateProcessor.process
      "Hello \x7b\x7bname\x7d\x7d! \x7b\x7b#missing\x7d\x7dThis wont show\x7b\x7b/missing\x7d\x7d \x7b\x7bunknown\x7d\x7d"
      [("name", .vStr "John")] = .ok "Hello John!  " := by
  decide

/-- One recipient of a group announcement (base.ts `recipients` items). -/
structure Recipient where
  to_email : String
  to_name : String
deriving DecidableEq, Repr

/-- `MailResult` (mailService.ts lines 22-26): what `MailService.sendMail`
resolves to.  `sendMail` itself never rejects — it catches SMTP errors and
returns `success: false` with an error string. -/
structure MailResult where
  success : Bool
  messageId : Option String
  error : Option String
deriving DecidableEq, Repr

/-- The per-recipient Send Outcome produced inside
`GroupAnnouncement.handle` (mailValidate.ts lines 189-200): the object
returned from the per-recipient async unit, in both the normal return and
the catch branch. -/
structure SendOutcome where
  success : Bool
  messageId : Option String
  error : Option String
  recipient : String
deriving DecidableEq, Repr

/-- `GroupAnnouncementResponse` (base.ts lines 45-51).  `message_ids` and
`errors` are `Option` so that an absent field is distinguishable from a
present-but-empty list; `GroupAnnouncement.handle` always assigns both on
the normal path. -/
structure GroupAnnouncementResponse where
  success : Bool
  sent_count : Nat
  failed_count : Nat
  message_ids : Option (List String)
  errors : Option (List String)
deriving DecidableEq, Repr

/-- JS template-literal interpolation of a possibly-undefined string:
an undefined value interpolates as the literal text `undefined`. -/
def optJsString : Option String → String
  | some s => s
  | none => "undefined"

/-- `.filter(Boolean)` over an array of possibly-undefined strings
(mailValidate.ts line 215): drops `undefined` and also the empty string,
since both are falsy. -/
def jsFilterBool (l : List (Option String)) : List String :=
  l.filterMap fun o =>
    match o with
    | some s => if s = "" then none else some s
    | none => none

/-- The per-recipient unit of work of `GroupAnnouncement.handle`
(mailValidate.ts lines 166-202).  The render-or-send sequence inside the
`try` (template-data assembly, `TemplateService.processTemplate`, and
`mailService.sendMail`) is abstracted as `step`, a function of the
recipient: `.ok r` means the sequence resolved with the mail result `r`,
`.error e` means it threw with message `e`.  The `catch` branch converts a
thrown error into a failed outcome tagged with the recipient's address;
the normal branch copies the mail result's fields and tags the address. -/
def processRecipient (step : Recipient → Except String MailResult)
    (r : Recipient) : SendOutcome :=
  match step r with
  | .ok res =>
    { success := res.success, messageId := res.messageId,
      error := res.error, recipient := r.to_email }
  | .error e =>
    { success := false, messageId := none,
      error := some e, recipient := r.to_email }

/-- The statistics/response construction of `GroupAnnouncement.handle`
(mailValidate.ts lines 207-217), applied to the settled results of all
recipient units. -/
def buildResponse (results : List SendOutcome) : GroupAnnouncementResponse :=
  let successfulSends := results.filter fun r => r.success
  let failedSends := results.filter fun r => !r.success
  { success := failedSends.length = 0
  , sent_count := successfulSends.length
  , failed_count := failedSends.length
  , message_ids := some (jsFilterBool (successfulSends.map SendOutcome.messageId))
  , errors := some (failedSends.map fun r => r.recipient ++ ": " ++ optJsString r.error) }

/-- The status-code selection of `GroupAnnouncement.handle`
(mailValidate.ts lines 220-221): 200 when nothing failed, 500 when nothing
succeeded (and something failed), 207 Multi-Status otherwise. -/
def groupStatusCode (results : List SendOutcome) : Nat :=
  let successfulSends := results.filter fun r => r.success
  let failedSends := results.filter fun r => !r.success
  if failedSends.length = 0 then 200
  else if successfulSends.length = 0 then 500
  else 207

/-- The whole fan-out/aggregation path of `GroupAnnouncement.handle` for a
payload that clears validation: map every recipient through its independent
unit of work (`Promise.all` settles them all; `processRecipient` never
rejects, so `Promise.all` never short-circuits), then build the aggregate
response and status code from the full results list. -/
def groupAnnouncementHandle (step : Recipient → Except String MailResult)
    (recipients : List Recipient) : GroupAnnouncementResponse × Nat :=
  let results := recipients.map (processRecipient step)
  (buildResponse results, groupStatusCode results)

theorem length_filter_add_length_filter_not (p : SendOutcome → Bool)
    (l : List SendOutcome) :
    (l.filter p).length + (l.filter fun x => !p x).length = l.length := by
  induction l with
  | nil => rfl
  | cons a t ih =>
    by_cases h : p a <;> simp [List.filter_cons, h] <;> omega

theorem jsFilterBool_of_defined (l : List SendOutcome)
    (h : ∀ r ∈ l, r.messageId.getD "" ≠ "") :
    jsFilterBool (l.map SendOutcome.messageId) =
      l.map fun r => r.messageId.getD "" := by
  induction l with
  | nil => rfl
  | cons a t ih =>
    have ha := h a (by simp)
    have ht := ih fun r hr => h r (by simp [hr])
    cases hm : a.messageId with
    | none => rw [hm] at ha; simp at ha
    | some m =>
      rw [hm] at ha
      simp only [Option.getD_some] at ha
      simp [jsFilterBool, hm, ha, List.filterMap_cons] at ht ⊢
      exact ht

theorem errors_map_of_defined (l : List SendOutcome)
    (h : ∀ r ∈ l, r.error ≠ none) :
    (l.map fun r => r.recipient ++ ": " ++ optJsString r.error) =
      l.map fun r => r.recipient ++ ": " ++ r.error.getD "" := by
  induction l with
  | nil => rfl
  | cons a t ih =>
    have ha := h a (by simp)
    have ht := ih fun r hr => h r (by simp [hr])
    cases hm : a.error with
    | none => exact absurd hm ha
    | some e =>
      rw [List.map_cons, List.map_cons, ht]
      simp [optJsString, hm]

/-- C2: the Dispatch Report aggregates the Send Outcomes: success iff all
succeeded, `sent_count` counts successes, `failed_count` counts failures,
`message_ids` lists the successful outcomes' identifiers (each successful
outcome carries a nonempty identifier), and `errors` lists
`"<address>: <error>"` for the failures (each failed outcome carries an
error string). -/
theorem claim2_dispatch_report (results : List SendOutcome)
    (hid : ∀ r ∈ results, r.success = true → r.messageId.getD "" ≠ "")
    (herr : ∀ r ∈ results, r.success = false → r.error ≠ none) :
    ((buildResponse results).success = true ↔ ∀ r ∈ results, r.success = true)
    ∧ (buildResponse results).sent_count =
        (results.filter fun r => r.success).length
    ∧ (buildResponse results).failed_count =
        (results.filter fun r => !r.success).length
    ∧ (buildResponse results).message_ids =
        some ((results.filter fun r => r.success).map fun r => r.messageId.getD "")
    ∧ (buildResponse results).errors =
        some ((results.filter fun r => !r.success).map
          fun r => r.recipient ++ ": " ++ r.error.getD "") := by
  refine ⟨?_, rfl, rfl, ?_, ?_⟩
  · simp only [buildResponse, decide_eq_true_eq, List.length_eq_zero,
      List.filter_eq_nil_iff]
    constructor
    · intro h r hr
      have := h r hr
      simpa using this
    · intro h r hr
      simp [h r hr]
  · simp only [buildResponse]
    rw [jsFilterBool_of_defined]
    intro r hr
    rw [List.mem_filter] at hr
    exact hid r hr.1 hr.2
  · simp only [buildResponse]
    rw [errors_map_of_defined]
    intro r hr
    rw [List.mem_filter] at hr
    refine herr r hr.1 ?_
    simpa using hr.2

/-- Concrete witness for C2: one successful and one failed outcome. -/
theorem claim2_dispatch_report_witness :
    ((buildResponse
        [⟨true, some "m1", none, "a@x.com"⟩, ⟨false, none, some "boom", "b@x.com"⟩]).success = true ↔
      ∀ r ∈ ([⟨true, some "m1", none, "a@x.com"⟩, ⟨false, none, some "boom", "b@x.com"⟩] : List SendOutcome),
        r.success = true)
    ∧ (buildResponse
        [⟨true, some "m1", none, "a@x.com"⟩, ⟨false, none, some "boom", "b@x.com"⟩]).sent_count =
        (([⟨true, some "m1", none, "a@x.com"⟩, ⟨false, none, some "boom", "b@x.com"⟩] : List SendOutcome).filter
          fun r => r.success).length
    ∧ (buildResponse
        [⟨true, some "m1", none, "a@x.com"⟩, ⟨false, none, some "boom", "b@x.com"⟩]).failed_count =
        (([⟨true, some "m1", none, "a@x.com"⟩, ⟨false, none, some "boom", "b@x.com"⟩] : List SendOutcome).filter
          fun r => !r.success).length
    ∧ (buildResponse
        [⟨true, some "m1", none, "a@x.com"⟩, ⟨false, none, some "boom", "b@x.com"⟩]).message_ids =
        some ((([⟨true, some "m1", none, "a@x.com"⟩, ⟨false, none, some "boom", "b@x.com"⟩] : List SendOutcome).filter
          fun r => r.success).map fun r => r.messageId.getD "")
    ∧ (buildResponse
        [⟨true, some "m1", none, "a@x.com"⟩, ⟨false, none, some "boom", "b@x.com"⟩]).errors =
        some ((([⟨true, some "m1", none, "a@x.com"⟩, ⟨false, none, some "boom", "b@x.com"⟩] : List SendOutcome).filter
          fun r => !r.success).map fun r => r.recipient ++ ": " ++ r.error.getD "") :=
  claim2_dispatch_report
    [⟨true, some "m1", none, "a@x.com"⟩, ⟨false, none, some "boom", "b@x.com"⟩]
    (by decide) (by decide)

/-- C9: `GroupAnnouncement.handle` produces exactly one Send Outcome per
recipient (`recipients.map`), so the success and failure counts always sum
to the number of recipients, duplicates included. -/
theorem claim9_one_outcome_per_recipient
    (step : Recipient → Except String MailResult) (recipients : List Recipient) :
    (groupAnnouncementHandle step recipients).1.sent_count +
      (groupAnnouncementHandle step recipients).1.failed_count =
      recipients.length := by
  have h := length_filter_add_length_filter_not (fun r => r.success)
    (recipients.map (processRecipient step))
  simpa [groupAnnouncementHandle, buildResponse] using h

/-- C5: the tri-state result classification of `GroupAnnouncement.handle`:
all outcomes succeeded gives overall success and status 200; a nonempty
all-failed run gives failure and status 500; a mix gives failure and the
distinct status 207; zero recipients give vacuous success with zero
counts. -/
theorem claim5_classification (step : Recipient → Except String MailResult)
    (recipients : List Recipient) (results : List SendOutcome)
    (hres : results = recipients.map (processRecipient step)) :
    ((∀ r ∈ results, r.success = true) →
        (buildResponse results).success = true ∧ groupStatusCode results = 200)
    ∧ (recipients ≠ [] → (∀ r ∈ results, r.success = false) →
        (buildResponse results).success = false ∧ groupStatusCode results = 500)
    ∧ ((∃ r ∈ results, r.success = true) → (∃ r ∈ results, r.success = false) →
        (buildResponse results).success = false ∧ groupStatusCode results = 207
          ∧ (207 : Nat) ≠ 500)
    ∧ (recipients = [] →
        (buildResponse results).success = true ∧
        (buildResponse results).sent_count = 0 ∧
        (buildResponse results).failed_count = 0 ∧
        groupStatusCode results = 200) := by
  refine ⟨?_, ?_, ?_, ?_⟩
  · intro hall
    have hfail : results.filter (fun r => !r.success) = [] := by
      rw [List.filter_eq_nil_iff]
      intro r hr
      simp [hall r hr]
    simp [buildResponse, groupStatusCode, hfail]
  · intro hne hall
    have hsucc : results.filter (fun r => r.success) = [] := by
      rw [List.filter_eq_nil_iff]
      intro r hr
      simp [hall r hr]
    have hfail : results.filter (fun r => !r.success) = results := by
      rw [List.filter_eq_self]
      intro r hr
      simp [hall r hr]
    have hrne : results ≠ [] := by
      rw [hres]
      simpa using hne
    have hlen : results.length ≠ 0 := fun h => hrne (List.length_eq_zero.mp h)
    constructor
    · simp [buildResponse, hfail, hlen]
    · simp [groupStatusCode, hfail, hsucc, hlen]
  · rintro ⟨rs, hrs, hrss⟩ ⟨rf, hrf, hrff⟩
    have hsne : results.filter (fun r => r.success) ≠ [] := by
      intro h
      have : rs ∈ results.filter (fun r => r.success) := by
        rw [List.mem_filter]; exact ⟨hrs, by simp [hrss]⟩
      rw [h] at this; exact absurd this (by simp)
    have hfne : results.filter (fun r => !r.success) ≠ [] := by
      intro h
      have : rf ∈ results.filter (fun r => !r.success) := by
        rw [List.mem_filter]; exact ⟨hrf, by simp [hrff]⟩
      rw [h] at this; exact absurd this (by simp)
    have h1 : (results.filter (fun r => r.success)).length ≠ 0 :=
      fun h => hsne (List.length_eq_zero.mp h)
    have h2 : (results.filter (fun r => !r.success)).length ≠ 0 :=
      fun h => hfne (List.length_eq_zero.mp h)
    refine ⟨by simp [buildResponse, h2], by simp [groupStatusCode, h1, h2], by decide⟩
  · intro hre
    subst hre
    simp at hres
    subst hres
    refine ⟨rfl, rfl, rfl, rfl⟩

/-- Recipients used in the concrete dispatch scenarios. -/
def recAlice : Recipient := { to_email := "alice@example.com", to_name := "Alice" }

def recBob : Recipient := { to_email := "bob@example.com", to_name := "Bob" }

/-- A render-or-send behaviour that always resolves successfully, with a
per-recipient message identifier (the transport always succeeds). -/
def alwaysOkStep : Recipient → Except String MailResult :=
  fun r => .ok { success := true, messageId := some ("id-" ++ r.to_email), error := none }

/-- A render-or-send behaviour that throws for Bob and succeeds for
everyone else. -/
def mixedStep : Recipient → Except String MailResult :=
  fun r =>
    if r.to_email = "bob@example.com" then .error "SMTP connection refused"
    else .ok { success := true, messageId := some "m1", error := none }

/-- Concrete witness for C5: the mixed case, one success and one thrown
failure, classified as 207 (partial) rather than 500. -/
theorem claim5_classification_witness :
    ((∃ r ∈ [recAlice, recBob].map (processRecipient mixedStep), r.success = true) ∧
     (∃ r ∈ [recAlice, recBob].map (processRecipient mixedStep), r.success = false)) ∧
    (buildResponse ([recAlice, recBob].map (processRecipient mixedStep))).success = false ∧
    groupStatusCode ([recAlice, recBob].map (processRecipient mixedStep)) = 207 ∧
    (207 : Nat) ≠ 500 := by
  have h := (claim5_classification mixedStep [recAlice, recBob]
    ([recAlice, recBob].map (processRecipient mixedStep)) rfl).2.2.1
  refine ⟨⟨?_, ?_⟩, h ?_ ?_⟩
  · exact ⟨processRecipient mixedStep recAlice, by decide, by decide⟩
  · exact ⟨processRecipient mixedStep recBob, by decide, by decide⟩
  · exact ⟨processRecipient mixedStep recAlice, by decide, by decide⟩
  · exact ⟨processRecipient mixedStep recBob, by decide, by decide⟩

/-- C3: failure isolation in `GroupAnnouncement.handle`.  Every recipient
gets exactly one outcome whatever the others did; a throw during a
recipient's render-or-send sequence is converted by the local `catch` into a
failed outcome tagged with that recipient's address (never propagated); a
resolving sequence yields the outcome copied from its mail result; and the
aggregate report is a function of the full, settled outcome list. -/
theorem claim3_failure_isolation (step : Recipient → Except String MailResult)
    (recipients : List Recipient) :
    (recipients.map (processRecipient step)).length = recipients.length
    ∧ (∀ r ∈ recipients, ∀ e, step r = .error e →
        processRecipient step r =
          { success := false, messageId := none, error := some e,
            recipient := r.to_email })
    ∧ (∀ r ∈ recipients, ∀ m, step r = .ok m →
        processRecipient step r =
          { success := m.success, messageId := m.messageId, error := m.error,
            recipient := r.to_email })
    ∧ groupAnnouncementHandle step recipients =
        (buildResponse (recipients.map (processRecipient step)),
         groupStatusCode (recipients.map (processRecipient step))) := by
  refine ⟨List.length_map .., ?_, ?_, rfl⟩
  · intro r _ e he
    simp [processRecipient, he]
  · intro r _ m hm
    simp [processRecipient, hm]

/-- Concrete witness for C3: Bob's unit throws, Alice's resolves; Bob's
error is caught into a tagged failed outcome, Alice is unaffected, and the
report covers both. -/
theorem claim3_failure_isolation_witness :
    ([recAlice, recBob].map (processRecipient mixedStep)).length = 2
    ∧ processRecipient mixedStep recBob =
        { success := false, messageId := none,
          error := some "SMTP connection refused", recipient := "bob@example.com" }
    ∧ processRecipient mixedStep recAlice =
        { success := true, messageId := some "m1", error := none,
          recipient := "alice@example.com" }
    ∧ groupAnnouncementHandle mixedStep [recAlice, recBob] =
        (buildResponse ([recAlice, recBob].map (processRecipient mixedStep)),
         groupStatusCode ([recAlice, recBob].map (processRecipient mixedStep))) := by
  have h := claim3_failure_isolation mixedStep [recAlice, recBob]
  refine ⟨h.1, ?_, ?_, h.2.2.2⟩
  · exact h.2.1 recBob (by decide) "SMTP connection refused" (by decide)
  · exact h.2.2.1 recAlice (by decide)
      { success := true, messageId := some "m1", error := none } (by decide)

/-- C7 as written is false: for an all-successful dispatch the handler
still assigns `errors: failedSends.map(...)`, so the report carries the
errors field as a present empty list, not an absent field
(mailValidate.ts line 216). -/
theorem claim7_counterexample :
    (groupAnnouncementHandle alwaysOkStep [recAlice, recBob]).1.errors = some []
    ∧ (some ([] : List String)) ≠ (none : Option (List String)) := by
  constructor
  · decide
  · decide

/-- C7 amended: for a dispatch in which every recipient's send succeeds,
the report is success with `sent_count` 2, `failed_count` 0, the two message
identifiers in order, and the errors field PRESENT as the empty list (it is
always assigned), with status 200. -/
theorem claim7_all_succeed (r1 r2 : Recipient)
    (step : Recipient → Except String MailResult) (m1 m2 : String)
    (e1 e2 : Option String)
    (h1 : step r1 = .ok { success := true, messageId := some m1, error := e1 })
    (h2 : step r2 = .ok { success := true, messageId := some m2, error := e2 })
    (hm1 : m1 ≠ "") (hm2 : m2 ≠ "") :
    groupAnnouncementHandle step [r1, r2] =
      ({ success := true, sent_count := 2, failed_count := 0,
         message_ids := some [m1, m2], errors := some [] }, 200) := by
  simp [groupAnnouncementHandle, processRecipient, h1, h2, buildResponse,
    groupStatusCode, jsFilterBool, hm1, hm2]

/-- Concrete witness for C7: two recipients with an always-succeeding
transport. -/
theorem claim7_all_succeed_witness :
    groupAnnouncementHandle alwaysOkStep [recAlice, recBob] =
      ({ success := true, sent_count := 2, failed_count := 0,
         message_ids := some ["id-alice@example.com", "id-bob@example.com"],
         errors := some [] }, 200) :=
  claim7_all_succeed recAlice recBob alwaysOkStep
    "id-alice@example.com" "id-bob@example.com" none none
    (by decide) (by decide) (by decide) (by decide)

/-- The compiled-in fallback content for `group.html`
(templateService.ts lines 97-215), byte for byte, including the mojibake
en-dash in the rating line. -/
def defaultGroupTemplate : String :=
  "<!DOCTYPE html>
<html lang=\"en\">
  <head>
    <meta charset=\"UTF-8\" />
    <title>Mood Update in \x7b\x7bgroup_name\x7d\x7d</title>
    <style>
      body \x7b
        font-family: -apple-system, BlinkMacSystemFont, \x27Segoe UI\x27, Roboto, Helvetica, Arial,
          sans-serif;
        line-height: 1.6;
        color: #2d3748;
        margin: 0 auto;
        max-width: 600px;
        padding: 24px;
        background-color: #f7fafc;
      \x7d
      .card \x7b
        background: #ffffff;
        border-radius: 12px;
        box-shadow: 0 4px 6px rgba(0, 0, 0, 0.05), 0 1px 3px rgba(0, 0, 0, 0.1);
        padding: 32px;
        margin-bottom: 24px;
      \x7d
      .header \x7b
        background: linear-gradient(135deg, #667eea 0%, #764ba2 100%);
        border-radius: 12px;
        padding: 32px 24px;
        text-align: center;
        margin-bottom: 24px;
        color: white;
      \x7d
      .header h2 \x7b
        margin: 0;
        font-size: 24px;
        font-weight: 600;
        letter-spacing: -0.5px;
      \x7d
      .rating \x7b
        font-size: 28px;
        font-weight: 700;
        text-align: center;
        margin: 32px 0;
        color: #4a5568;
        padding: 16px;
        background: #f8fafc;
        border-radius: 8px;
        border: 1px solid #e2e8f0;
      \x7d
      .note \x7b
        background: #f8fafc;
        border-radius: 8px;
        padding: 20px;
        margin-top: 24px;
        border: 1px solid #e2e8f0;
      \x7d
      .note strong \x7b
        color: #4a5568;
        display: block;
        margin-bottom: 8px;
        font-size: 14px;
        text-transform: uppercase;
        letter-spacing: 0.5px;
      \x7d
      .footer \x7b
        text-align: center;
        margin-top: 32px;
        font-size: 13px;
        color: #718096;
        line-height: 1.5;
      \x7d
      p \x7b
        margin: 0 0 16px 0;
        color: #4a5568;
        font-size: 16px;
      \x7d
      p:last-child \x7b
        margin-bottom: 0;
      \x7d
      @media screen and (max-width: 480px) \x7b
        body \x7b
          padding: 16px;
        \x7d
        .card \x7b
          padding: 24px;
        \x7d
        .header \x7b
          padding: 24px 16px;
        \x7d
        .rating \x7b
          font-size: 24px;
          margin: 24px 0;
        \x7d
      \x7d
    </style>
  </head>
  <body>
    <div class=\"header\">
      <h2>New Mood Rating in \x7b\x7bgroup_name\x7d\x7d</h2>
    </div>

    <div class=\"card\">
      <p>Hi \x7b\x7bto_name\x7d\x7d,</p>
      <p>\x7b\x7bfrom_name\x7d\x7d has shared today\x27s mood:</p>

      <div class=\"rating\">\x7b\x7brating\x7d\x7d / 10 â€“ \x7b\x7bmessage\x7d\x7d</div>

      \x7b\x7b#note\x7d\x7d
      <div class=\"note\">
        <strong>Note:</strong><br />
        \x7b\x7bnote\x7d\x7d
      </div>
      \x7b\x7b/note\x7d\x7d

      <p style=\"margin-top: 20px\">Keep supporting each other on your mood-tracking journey!</p>
    </div>

    <div class=\"footer\">This is an automated email from HowUFeel. Please do not reply.</div>
  </body>
</html>"

/-- The recognized template names (base.ts `AVAILABLE_TEMPLATES` keys). -/
inductive TemplateName where
  | group
deriving DecidableEq, Repr

/-- `AVAILABLE_TEMPLATES` (base.ts lines 74-76): template name to file key. -/
def AVAILABLE_TEMPLATES : TemplateName → String
  | .group => "group.html"

/-- The observable behaviours of one `TEMPLATES_KV.get(filename)` call at
the Template Store boundary: the call throws, returns null/undefined
(absent), or returns a string. -/
inductive KVResult where
  | kvError : KVResult
  | kvAbsent : KVResult
  | kvValue : String → KVResult
deriving DecidableEq, Repr

/-- The KV binding as seen by `readTemplateFile`: `none` models a missing
`env`/`env.TEMPLATES_KV` (store unavailable), `some get` models an available
store whose `get` behaves as described per file key. -/
abbrev KVStore := Option (String → KVResult)

/-- The in-memory `templateCache` (templateService.ts line 5), an
association list keyed by file name; insertion prepends, lookup takes the
first hit, which matches `Map.set`/`Map.get` observably. -/
abbrev TemplateCache := List (String × String)

namespace TemplateService

/-- `TemplateService.readTemplateFile` (templateService.ts lines 81-219):
try KV when available — a thrown `get` is caught (warn) and falls through,
an absent value falls through, and `if (template)` means an empty string
also falls through; then fall back to the compiled-in default for
`group.html`; any other file name is a thrown "not found" error. -/
def readTemplateFile (filename : String) (kv : KVStore) : Except String String :=
  let fromKV : Option String :=
    match kv with
    | none => none
    | some get =>
      match get filename with
      | .kvError => none
      | .kvAbsent => none
      | .kvValue t => if t = "" then none else some t
  match fromKV with
  | some t => .ok t
  | none =>
    if filename = "group.html" then .ok defaultGroupTemplate
    else .error ("Template file " ++ filename ++ " not found")

/-- `TemplateService.loadTemplate` (templateService.ts lines 10-30): cache
hit returns immediately; otherwise read (KV with hardcoded fallback), cache
the result and return it; a read failure is rethrown wrapped.  The cache is
threaded explicitly since it is process-wide mutable state in the source. -/
def loadTemplate (templateName : TemplateName) (kv : KVStore)
    (cache : TemplateCache) : Except String (String × TemplateCache) :=
  let templateFile := AVAILABLE_TEMPLATES templateName
  match cache.lookup templateFile with
  | some t => .ok (t, cache)
  | none =>
    match readTemplateFile templateFile kv with
    | .ok template => .ok (template, (templateFile, template) :: cache)
    | .error e => .error ("Failed to load template: " ++ e)

end TemplateService

/-- A backing store that misses for the given file key: unavailable,
raising, or returning absent. -/
def kvMisses (kv : KVStore) (file : String) : Prop :=
  match kv with
  | none => True
  | some get => get file = .kvError ∨ get file = .kvAbsent

/-- C8: for the recognized template name, a backing store that is absent,
raising, or unavailable still resolves `load` to the compiled-in default
content, the result is cached, and any subsequent load (whatever the store
then does) returns the same content from the cache. -/
theorem claim8_fallback_and_cache (kv : KVStore) (h : kvMisses kv "group.html") :
    TemplateService.loadTemplate .group kv [] =
      .ok (defaultGroupTemplate, [("group.html", defaultGroupTemplate)])
    ∧ ∀ kv2 : KVStore,
        TemplateService.loadTemplate .group kv2 [("group.html", defaultGroupTemplate)] =
          .ok (defaultGroupTemplate, [("group.html", defaultGroupTemplate)]) := by
  constructor
  · cases kv with
    | none => rfl
    | some get =>
      simp only [kvMisses] at h
      rcases h with h | h <;>
        simp [TemplateService.loadTemplate, TemplateService.readTemplateFile,
          AVAILABLE_TEMPLATES, h, List.lookup]
  · intro kv2
    rfl

/-- Concrete witness for C8: the store is unavailable (`env` without a KV
binding). -/
theorem claim8_fallback_and_cache_witness :
    kvMisses none "group.html" ∧
    (TemplateService.loadTemplate .group none [] =
      .ok (defaultGroupTemplate, [("group.html", defaultGroupTemplate)])
    ∧ ∀ kv2 : KVStore,
        TemplateService.loadTemplate .group kv2 [("group.html", defaultGroupTemplate)] =
          .ok (defaultGroupTemplate, [("group.html", defaultGroupTemplate)])) :=
  ⟨trivial, claim8_fallback_and_cache none trivial⟩

theorem findSub_none_of_head_ne (c : Char) (pt : List Char) :
    ∀ s : List Char, c ∉ s → findSub (c :: pt) s = none := by
  intro s
  induction s with
  | nil => intro _; rfl
  | cons a rest ih =>
    intro hs
    have hac : ¬(c :: pt).isPrefixOf (a :: rest) := by
      intro hpre
      rw [ List.isPrefixOf_iff_prefix] at hpre
      obtain ⟨t, ht⟩ := hpre
      apply hs
      rw [← ht]
      simp
    simp only [findSub, hac, if_false]
    rw [ih fun hm => hs (List.mem_cons_of_mem _ hm)]
    simp

theorem findSub_boundary (c : Char) (pt : List Char) :
    ∀ (x y : List Char), c ∉ x →
      findSub (c :: pt) (x ++ (c :: pt) ++ y) = some (x, y) := by
  intro x
  induction x with
  | nil =>
    intro y _
    have hpre : (c :: pt).isPrefixOf ((c :: pt) ++ y) := by
      rw [ List.isPrefixOf_iff_prefix]
      exact ⟨y, rfl⟩
    have : ([] : List Char) ++ (c :: pt) ++ y = (c :: pt) ++ y := by simp
    rw [this]
    have hcons : (c :: pt) ++ y = c :: (pt ++ y) := rfl
    rw [hcons]
    simp only [findSub, ← hcons, hpre, if_true]
    rw [List.drop_left]
  | cons a x' ih =>
    intro y hx
    have hane : a ≠ c := fun he => hx (he ▸ List.mem_cons_self ..)
    have hx' : c ∉ x' := fun hm => hx (List.mem_cons_of_mem _ hm)
    have hstep : (a :: x') ++ (c :: pt) ++ y = a :: (x' ++ (c :: pt) ++ y) := by simp
    rw [hstep]
    have hnpre : ¬(c :: pt).isPrefixOf (a :: (x' ++ (c :: pt) ++ y)) := by
      intro hpre
      rw [ List.isPrefixOf_iff_prefix] at hpre
      obtain ⟨t, ht⟩ := hpre
      exact hane (by simpa using congrArg List.head? ht.symm)
    simp only [findSub, hnpre, if_false]
    rw [ih y hx']
    simp

/-- A template consisting of a marker-free prefix followed by conditional
blocks for one key, each block followed by a marker-free trailing segment:
`p0 ++ OPEN b1 CLOSE p1 ++ OPEN b2 CLOSE p2 ++ ...`. -/
def blocksTemplate (key : List Char) (p0 : List Char)
    (bs : List (List Char × List Char)) : List Char :=
  p0 ++ (bs.map fun bp => condOpen key ++ bp.1 ++ condClose key ++ bp.2).flatten

theorem blocksTemplate_cons (key p0 b p : List Char)
    (tail : List (List Char × List Char)) :
    blocksTemplate key p0 ((b, p) :: tail) =
      p0 ++ condOpen key ++ (b ++ condClose key ++ blocksTemplate key p tail) := by
  simp [blocksTemplate, List.flatten]

theorem blocksTemplate_length (key p0 : List Char)
    (bs : List (List Char × List Char)) :
    bs.length ≤ (blocksTemplate key p0 bs).length := by
  induction bs generalizing p0 with
  | nil => simp
  | cons bp tail ih =>
    obtain ⟨b, p⟩ := bp
    rw [blocksTemplate_cons]
    have := ih p
    simp only [List.length_append, List.length_cons, condOpen, condClose]
    simp only [List.length_append, List.length_cons] at this ⊢
    omega

theorem condPassFuel_blocks (key : List Char) (keep : Bool) :
    ∀ (bs : List (List Char × List Char)) (p0 : List Char) (fuel : Nat),
      bs.length < fuel → lbrace ∉ p0 →
      (∀ bp ∈ bs, lbrace ∉ bp.1 ∧ lbrace ∉ bp.2) →
      condPassFuel key keep fuel (blocksTemplate key p0 bs) =
        p0 ++ (bs.map fun bp => (if keep then bp.1 else []) ++ bp.2).flatten := by
  intro bs
  induction bs with
  | nil =>
    intro p0 fuel hfuel hp0 _
    obtain ⟨f, rfl⟩ : ∃ f, fuel = f + 1 :=
      ⟨fuel - 1, by omega⟩
    have hopen : findSub (condOpen key) p0 = none := by
      rw [condOpen]
      exact findSub_none_of_head_ne lbrace _ p0 hp0
    simp [condPassFuel, blocksTemplate, hopen, List.flatten]
  | cons bp tail ih =>
    intro p0 fuel hfuel hp0 hbs
    obtain ⟨b, p⟩ := bp
    obtain ⟨f, rfl⟩ : ∃ f, fuel = f + 1 := ⟨fuel - 1, by omega⟩
    have hb : lbrace ∉ b := (hbs (b, p) (by simp)).1
    have hp : lbrace ∉ p := (hbs (b, p) (by simp)).2
    rw [blocksTemplate_cons]
    have hopen :
        findSub (condOpen key)
          (p0 ++ condOpen key ++ (b ++ condClose key ++ blocksTemplate key p tail)) =
        some (p0, b ++ condClose key ++ blocksTemplate key p tail) := by
      rw [condOpen]
      exact findSub_boundary lbrace _ p0 _ hp0
    have hclose :
        findSub (condClose key)
          (b ++ condClose key ++ blocksTemplate key p tail) =
        some (b, blocksTemplate key p tail) := by
      rw [condClose]
      exact findSub_boundary lbrace _ b _ hb
    simp only [condPassFuel, hopen, hclose]
    rw [ih p f (by simpa using Nat.lt_of_succ_lt_succ hfuel) hp
      (fun q hq => hbs q (List.mem_cons_of_mem _ hq))]
    simp [List.flatten]

/-- C1 as written is false on the code: the source's conditional test is JS
loose truthiness (`value && value !== ''`), under which the numeric value 0
is falsy, so a block conditioned on a key bound to the number 0 is removed,
not kept.  Here the claim's rule ("defined, not the empty string, not
strictly false") predicts the body `B`; the code produces the empty
string. -/
theorem claim1_counterexample :
    TemplateProcessor.process "\x7b\x7b#k\x7d\x7dB\x7b\x7b/k\x7d\x7d"
      [("k", .vInt 0)] = .ok ""
    ∧ ("" : String) ≠ "B" := by
  constructor
  · decide
  · decide

/-- C1 amended: in the conditional pass, for a regex-literal key, every
block `OPEN BODY CLOSE` (in a template of marker-free segments around the
blocks of that key) is replaced by its BODY exactly when the key's value is
truthy under JS loose coercion — defined, not the empty string, not `false`,
not the number 0, and not NaN — and by the empty string otherwise. -/
theorem claim1_conditional_pass (key : String) (v : JValue) (p0 : List Char)
    (bs : List (List Char × List Char))
    (hk : nameSafe key = true) (hp0 : lbrace ∉ p0)
    (hbs : ∀ bp ∈ bs, lbrace ∉ bp.1 ∧ lbrace ∉ bp.2) :
    condAll [(key, v)] (blocksTemplate key.toList p0 bs) =
      .ok (p0 ++ (bs.map fun bp => (if jsTruthy v then bp.1 else []) ++ bp.2).flatten) := by
  simp only [condAll, hk, if_true]
  rw [condPass]
  rw [condPassFuel_blocks key.toList (jsTruthy v) bs p0 _
    (Nat.lt_succ_of_le (blocksTemplate_length key.toList p0 bs)) hp0 hbs]

/-- Concrete witness for C1: a truthy key keeps its block's body. -/
theorem claim1_conditional_pass_witness :
    nameSafe "note" = true ∧ lbrace ∉ "Hello ".toList ∧
    (∀ bp ∈ ([("Body".toList, "!".toList)] : List (List Char × List Char)),
      lbrace ∉ bp.1 ∧ lbrace ∉ bp.2) ∧
    condAll [("note", .vStr "yes")]
        (blocksTemplate "note".toList "Hello ".toList [("Body".toList, "!".toList)]) =
      .ok ("Hello ".toList ++
        (([("Body".toList, "!".toList)] : List (List Char × List Char)).map
          fun bp => (if jsTruthy (.vStr "yes") then bp.1 else []) ++ bp.2).flatten) :=
  ⟨by decide, by decide, by decide,
    claim1_conditional_pass "note" (.vStr "yes") "Hello ".toList
      [("Body".toList, "!".toList)] (by decide) (by decide) (by decide)⟩

theorem expandRepl_no_dollar (repl : List Char) (h : '$' ∉ repl) :
    ∀ before matched after, expandRepl before matched after repl = repl := by
  induction repl with
  | nil => intro _ _ _; rfl
  | cons c rest ih =>
    intro before matched after
    have hc : c ≠ '$' := fun he => h (he ▸ List.mem_cons_self ..)
    have hr : '$' ∉ rest := fun hm => h (List.mem_cons_of_mem _ hm)
    rw [expandRepl.eq_def]
    dsimp only
    rw [if_neg hc, ih hr]

/-- A template consisting of a marker-free prefix followed by variable
markers for one key, each marker followed by a marker-free trailing
segment. -/
def varsTemplate (key : List Char) (p0 : List Char) (ps : List (List Char)) :
    List Char :=
  p0 ++ (ps.map fun p => varMarker key ++ p).flatten

theorem varsTemplate_cons (key p0 p : List Char) (tail : List (List Char)) :
    varsTemplate key p0 (p :: tail) =
      p0 ++ varMarker key ++ varsTemplate key p tail := by
  simp [varsTemplate, List.flatten]

theorem varsTemplate_length (key p0 : List Char) (ps : List (List Char)) :
    ps.length ≤ (varsTemplate key p0 ps).length := by
  induction ps generalizing p0 with
  | nil => simp
  | cons p tail ih =>
    rw [varsTemplate_cons]
    have := ih p
    simp only [List.length_append, List.length_cons, varMarker] at this ⊢
    omega

theorem varPassFuel_vars (key repl : List Char) (hd : '$' ∉ repl) :
    ∀ (ps : List (List Char)) (p0 done : List Char) (fuel : Nat),
      ps.length < fuel → lbrace ∉ p0 → (∀ p ∈ ps, lbrace ∉ p) →
      varPassFuel key repl fuel done (varsTemplate key p0 ps) =
        p0 ++ (ps.map fun p => repl ++ p).flatten := by
  intro ps
  induction ps with
  | nil =>
    intro p0 done fuel hfuel hp0 _
    obtain ⟨f, rfl⟩ : ∃ f, fuel = f + 1 := ⟨fuel - 1, by omega⟩
    have hnone : findSub (varMarker key) p0 = none := by
      rw [varMarker]
      exact findSub_none_of_head_ne lbrace _ p0 hp0
    simp [varPassFuel, varsTemplate, hnone, List.flatten]
  | cons p tail ih =>
    intro p0 done fuel hfuel hp0 hps
    obtain ⟨f, rfl⟩ : ∃ f, fuel = f + 1 := ⟨fuel - 1, by omega⟩
    have hp : lbrace ∉ p := hps p (by simp)
    rw [varsTemplate_cons]
    have hfind :
        findSub (varMarker key) (p0 ++ varMarker key ++ varsTemplate key p tail) =
        some (p0, varsTemplate key p tail) := by
      rw [varMarker]
      exact findSub_boundary lbrace _ p0 _ hp0
    simp only [varPassFuel, hfind]
    rw [expandRepl_no_dollar repl hd]
    rw [ih p (done ++ p0 ++ varMarker key) f
      (by simpa using Nat.lt_of_succ_lt_succ hfuel) hp
      (fun q hq => hps q (List.mem_cons_of_mem _ hq))]
    simp [List.flatten]

/-- C6 as written is false on the code: the substituted text is
`String(value || '')`, so a key defined as the number 0 (falsy) substitutes
as the empty string, not as its string form "0". -/
theorem claim6_counterexample :
    TemplateProcessor.process "\x7b\x7bk\x7d\x7d" [("k", .vInt 0)] = .ok ""
    ∧ ("" : String) ≠ "0" := by
  constructor
  · decide
  · decide

/-- C6 amended: in the variable pass, for a regex-literal key whose
substituted text `String(value || '')` contains no `$` (the replacement
string would otherwise go through JS `$`-escape expansion), every
occurrence of the key's marker is replaced by that text, all occurrences
identically: the string form of the value when it is truthy, and the empty
string for every falsy value (undefined, null, `false`, the number 0, NaN,
and the empty string) — not the literal "undefined". -/
theorem claim6_variable_pass (key : String) (v : JValue) (p0 : List Char)
    (ps : List (List Char))
    (hk : nameSafe key = true) (hd : '$' ∉ (strOfJs v).toList)
    (hp0 : lbrace ∉ p0) (hps : ∀ p ∈ ps, lbrace ∉ p) :
    varAll [(key, v)] (varsTemplate key.toList p0 ps) =
      .ok (p0 ++ (ps.map fun p => (strOfJs v).toList ++ p).flatten) := by
  simp only [varAll, hk, if_true]
  rw [varPass]
  rw [varPassFuel_vars key.toList (strOfJs v).toList hd ps p0 []
    _ (Nat.lt_succ_of_le (varsTemplate_length key.toList p0 ps)) hp0 hps]

/-- Concrete witness for C6: the key `rating` bound to the number 7 is
substituted as "7" at both of its occurrences. -/
theorem claim6_variable_pass_witness :
    nameSafe "rating" = true ∧ '$' ∉ (strOfJs (.vInt 7)).toList ∧
    lbrace ∉ "Rated ".toList ∧
    (∀ p ∈ ([" and ".toList, " again".toList] : List (List Char)), lbrace ∉ p) ∧
    varAll [("rating", .vInt 7)]
        (varsTemplate "rating".toList "Rated ".toList
          [" and ".toList, " again".toList]) =
      .ok ("Rated ".toList ++
        (([" and ".toList, " again".toList] : List (List Char)).map
          fun p => (strOfJs (.vInt 7)).toList ++ p).flatten) :=
  ⟨by decide, by decide, by decide, by decide,
    claim6_variable_pass "rating" (.vInt 7) "Rated ".toList
      [" and ".toList, " again".toList] (by decide) (by decide) (by decide) (by decide)⟩

theorem condAll_ok (data : List (String × JValue))
    (h : ∀ kv ∈ data, nameSafe kv.1 = true) :
    ∀ s, ∃ s2, condAll data s = .ok s2 := by
  induction data with
  | nil => intro s; exact ⟨s, rfl⟩
  | cons kv rest ih =>
    intro s
    obtain ⟨k, v⟩ := kv
    have hk : nameSafe k = true := h (k, v) (by simp)
    simp only [condAll, hk, if_true]
    exact ih (fun q hq => h q (List.mem_cons_of_mem _ hq)) _

theorem varAll_ok (data : List (String × JValue))
    (h : ∀ kv ∈ data, nameSafe kv.1 = true) :
    ∀ s, ∃ s2, varAll data s = .ok s2 := by
  induction data with
  | nil => intro s; exact ⟨s, rfl⟩
  | cons kv rest ih =>
    intro s
    obtain ⟨k, v⟩ := kv
    have hk : nameSafe k = true := h (k, v) (by simp)
    simp only [varAll, hk, if_true]
    exact ih (fun q hq => h q (List.mem_cons_of_mem _ hq)) _

/-- C4 as written is false on the code: `process` splices raw data keys
into `new RegExp(...)` patterns, so a key containing regex syntax — here
the single character `(`, which leaves a group unclosed — makes the
constructor throw instead of returning a string.  (The source's own
`validateTemplate` wraps `process` in try/catch, mailService.ts lines
128-135.) -/
theorem claim4_counterexample :
    TemplateProcessor.process "\x7b\x7b#(\x7d\x7dhi\x7b\x7b/(\x7d\x7d"
      [("(", .vStr "yes")] =
      .error "Invalid regular expression constructed from key: (" := by
  decide

/-- C4 amended: the renderer is total — returns a string, never throws —
for every template string and every data mapping whose keys are
regex-literal (no regex syntax characters and not quantifier-shaped; all
keys the system itself uses, such as `group_name` or `note`, qualify),
including the empty template and the empty mapping. -/
theorem claim4_render_total (template : String) (data : List (String × JValue))
    (h : ∀ kv ∈ data, nameSafe kv.1 = true) :
    ∃ out, TemplateProcessor.process template data = .ok out := by
  obtain ⟨s1, h1⟩ := condAll_ok data h template.toList
  obtain ⟨s3, h3⟩ := varAll_ok data h (cleanupCond s1)
  refine ⟨String.mk (cleanupVars s3), ?_⟩
  simp only [TemplateProcessor.process]
  rw [h1]
  dsimp only
  rw [h3]

/-- Concrete witness for C4: all keys of a realistic mapping are
regex-literal, so rendering succeeds. -/
theorem claim4_render_total_witness :
    (∀ kv ∈ ([("group_name", JValue.vStr "Team"), ("note", JValue.vUndef)] :
        List (String × JValue)), nameSafe kv.1 = true) ∧
    ∃ out, TemplateProcessor.process
      "Mood in \x7b\x7bgroup_name\x7d\x7d \x7b\x7b#note\x7d\x7dN\x7b\x7b/note\x7d\x7d"
      [("group_name", JValue.vStr "Team"), ("note", JValue.vUndef)] = .ok out :=
  ⟨by decide,
    claim4_render_total "Mood in \x7b\x7bgroup_name\x7d\x7d \x7b\x7b#note\x7d\x7dN\x7b\x7b/note\x7d\x7d"
      [("group_name", JValue.vStr "Team"), ("note", JValue.vUndef)] (by decide)⟩


theorem tokAt_none_of_head_ne (tag c : Char) (l : List Char) (hc : c ≠ lbrace) :
    tokAt tag (c :: l) = none := by
  cases l with
  | nil => rfl
  | cons b l2 =>
    cases l2 with
    | nil => rfl
    | cons d l3 => simp [tokAt, hc]

theorem varTokAt_none_of_head_ne (c : Char) (l : List Char) (hc : c ≠ lbrace) :
    varTokAt (c :: l) = none := by
  cases l with
  | nil => rfl
  | cons b l2 => simp [varTokAt, hc]

theorem takeWhile_append_all (p : Char → Bool) :
    ∀ (x : List Char), (∀ c ∈ x, p c = true) → ∀ (b : Char), p b = false →
      ∀ t, (x ++ b :: t).takeWhile p = x ∧ (x ++ b :: t).dropWhile p = b :: t := by
  intro x
  induction x with
  | nil =>
    intro _ b hb t
    constructor
    · show List.takeWhile p (b :: t) = []
      simp [List.takeWhile_cons, hb]
    · show List.dropWhile p (b :: t) = b :: t
      simp [List.dropWhile_cons, hb]
  | cons c x' ih =>
    intro hx b hb t
    have hc : p c = true := hx c (by simp)
    obtain ⟨ht, hd⟩ := ih (fun q hq => hx q (by simp [hq])) b hb t
    constructor
    · show List.takeWhile p (c :: (x' ++ b :: t)) = c :: x'
      rw [List.takeWhile_cons, hc]
      simp only [if_true, ht]
    · show List.dropWhile p (c :: (x' ++ b :: t)) = b :: t
      rw [List.dropWhile_cons, hc]
      simp only [if_true, hd]

theorem markerTail_marker (x r : List Char) (hne : x ≠ []) (hx : rbrace ∉ x) :
    markerTail (x ++ rbrace :: rbrace :: r) = some r := by
  have hall : ∀ c ∈ x, (fun ch => decide (ch ≠ rbrace)) c = true := by
    intro c hc
    exact decide_eq_true (fun he => hx (he ▸ hc))
  have hb : (fun ch => decide (ch ≠ rbrace)) rbrace = false := by
    simp
  obtain ⟨ht, hd⟩ := takeWhile_append_all _ x hall rbrace hb (rbrace :: r)
  rw [markerTail]
  rw [ht, hd]
  cases x with
  | nil => exact absurd rfl hne
  | cons c x' => simp

theorem markerTail_consume (rest r : List Char) (h : markerTail rest = some r) :
    r.length < rest.length + 1 := by
  rw [markerTail] at h
  cases ht : rest.takeWhile (fun ch => ch ≠ rbrace) with
  | nil => rw [ht] at h; exact absurd h (by simp)
  | cons c tl =>
    rw [ht] at h
    cases hd : rest.dropWhile (fun ch => ch ≠ rbrace) with
    | nil => rw [hd] at h; exact absurd h (by simp)
    | cons d l2 =>
      cases l2 with
      | nil => rw [hd] at h; exact absurd h (by simp)
      | cons e r2 =>
        rw [hd] at h
        dsimp only at h
        by_cases hde : d = rbrace ∧ e = rbrace
        · rw [if_pos hde] at h
          have hr : r2 = r := by simpa using h
          subst hr
          have hlen : (d :: e :: r2).length ≤ rest.length := by
            rw [← hd]
            exact (List.dropWhile_suffix _).length_le
          simp only [List.length_cons] at hlen
          omega
        · rw [if_neg hde] at h
          exact absurd h (by simp)

theorem tokAt_marker (tag : Char) (x r : List Char) (hne : x ≠ [])
    (hx : rbrace ∉ x) :
    tokAt tag (lbrace :: lbrace :: tag :: (x ++ rbrace :: rbrace :: r)) = some r := by
  simp [tokAt, markerTail_marker x r hne hx]

theorem tokAt_consume (tag : Char) :
    ∀ (s r : List Char), tokAt tag s = some r → r.length < s.length := by
  intro s r h
  match s with
  | [] => exact absurd h (by simp [tokAt])
  | [a] => exact absurd h (by simp [tokAt])
  | [a, b] => exact absurd h (by simp [tokAt])
  | a :: b :: c :: rest =>
    simp only [tokAt] at h
    by_cases habc : a = lbrace ∧ b = lbrace ∧ c = tag
    · rw [if_pos habc] at h
      have := markerTail_consume rest r h
      simp only [List.length_cons]
      omega
    · rw [if_neg habc] at h
      exact absurd h (by simp)

theorem scanTok_shift_some (tok : List Char → Option (List Char))
    (htok : ∀ (c : Char) (l : List Char), c ≠ lbrace → tok (c :: l) = none) :
    ∀ (p : List Char), lbrace ∉ p → ∀ (s a b : List Char),
      scanTok tok s = some (a, b) → scanTok tok (p ++ s) = some (p ++ a, b) := by
  intro p
  induction p with
  | nil => intro _ s a b h; simpa using h
  | cons c p' ih =>
    intro hp s a b h
    have hc : c ≠ lbrace := fun he => hp (he ▸ List.mem_cons_self ..)
    have hp' : lbrace ∉ p' := fun hm => hp (List.mem_cons_of_mem _ hm)
    have hrest := ih hp' s a b h
    have hcons : (c :: p') ++ s = c :: (p' ++ s) := rfl
    rw [hcons]
    simp only [scanTok, htok c _ hc, hrest]
    rfl

theorem scanTok_consume (tok : List Char → Option (List Char))
    (hcons : ∀ s r, tok s = some r → r.length < s.length) :
    ∀ (s pre rest : List Char), scanTok tok s = some (pre, rest) →
      pre.length + rest.length < s.length := by
  intro s
  induction s with
  | nil =>
    intro pre rest h
    simp only [scanTok] at h
    cases htok : tok [] with
    | some r => exact absurd (hcons [] r htok) (by simp)
    | none => rw [htok] at h; exact absurd h (by simp)
  | cons c s' ih =>
    intro pre rest h
    simp only [scanTok] at h
    cases htok : tok (c :: s') with
    | some r =>
      rw [htok] at h
      simp only [Option.some.injEq, Prod.mk.injEq] at h
      obtain ⟨h1, h2⟩ := h
      subst h1; subst h2
      simpa using hcons _ _ htok
    | none =>
      rw [htok] at h
      cases hrec : scanTok tok s' with
      | none => rw [hrec] at h; exact absurd h (by simp)
      | some pr =>
        obtain ⟨a, b⟩ := pr
        rw [hrec] at h
        simp only [Option.some.injEq, Prod.mk.injEq] at h
        obtain ⟨h1, h2⟩ := h
        subst h2
        rw [← h1]
        have := ih a b hrec
        simp only [List.length_cons] at this ⊢
        omega

theorem cleanupCondFuel_irrel :
    ∀ (k : Nat) (s : List Char), s.length ≤ k → ∀ n m, s.length < n → s.length < m →
      cleanupCondFuel n s = cleanupCondFuel m s := by
  intro k
  induction k with
  | zero =>
    intro s hs n m hn hm
    have hse : s = [] := List.length_eq_zero.mp (Nat.le_zero.mp hs)
    subst hse
    obtain ⟨n', rfl⟩ : ∃ n', n = n' + 1 := ⟨n - 1, by omega⟩
    obtain ⟨m', rfl⟩ : ∃ m', m = m' + 1 := ⟨m - 1, by omega⟩
    rfl
  | succ k ih =>
    intro s hs n m hn hm
    obtain ⟨n', rfl⟩ : ∃ n', n = n' + 1 := ⟨n - 1, by omega⟩
    obtain ⟨m', rfl⟩ : ∃ m', m = m' + 1 := ⟨m - 1, by omega⟩
    simp only [cleanupCondFuel]
    cases h1 : scanTok (tokAt '#') s with
    | none => rfl
    | some pr =>
      obtain ⟨pre, rest⟩ := pr
      dsimp only
      cases h2 : scanTok (tokAt '/') rest with
      | none => rfl
      | some pr2 =>
        obtain ⟨bd, rest2⟩ := pr2
        dsimp only
        have hc1 := scanTok_consume (tokAt '#') (tokAt_consume '#') s pre rest h1
        have hc2 := scanTok_consume (tokAt '/') (tokAt_consume '/') rest bd rest2 h2
        rw [ih rest2 (by omega) n' m' (by omega) (by omega)]

/-- C10: the cleanup pass for leftover conditional blocks does not require
the opening and closing marker names to match: a span from an opening
marker with any nonempty name `x` to the nearest following closing marker
with any nonempty name `y` is stripped as one block, body included, and the
pass continues after it.  (In `process` this pass runs on markers left by
the per-key pass, i.e. on names absent from the data mapping.)  The prefix
`p` and body contain no opening brace; `x` and `y` contain no closing
brace, as the regex `[^\x7d]+` requires. -/
theorem claim10_mismatched_cleanup (x y body p q : List Char)
    (hxne : x ≠ []) (hyne : y ≠ []) (hx : rbrace ∉ x) (hy : rbrace ∉ y)
    (hbody : lbrace ∉ body) (hp : lbrace ∉ p) :
    cleanupCond (p ++ condOpen x ++ body ++ condClose y ++ q) =
      p ++ cleanupCond q := by
  have hopen1 :
      scanTok (tokAt '#') (condOpen x ++ (body ++ condClose y ++ q)) =
        some ([], body ++ condClose y ++ q) := by
    have harr : condOpen x ++ (body ++ condClose y ++ q) =
        lbrace :: lbrace :: '#' :: (x ++ rbrace :: rbrace :: (body ++ condClose y ++ q)) := by
      simp [condOpen]
    rw [harr]
    simp only [scanTok, tokAt_marker '#' x _ hxne hx]
  have hopen :
      scanTok (tokAt '#') (p ++ (condOpen x ++ (body ++ condClose y ++ q))) =
        some (p, body ++ condClose y ++ q) := by
    have := scanTok_shift_some (tokAt '#')
      (fun c l hc => tokAt_none_of_head_ne '#' c l hc) p hp _ _ _ hopen1
    simpa using this
  have hclose1 :
      scanTok (tokAt '/') (condClose y ++ q) = some ([], q) := by
    have harr : condClose y ++ q =
        lbrace :: lbrace :: '/' :: (y ++ rbrace :: rbrace :: q) := by
      simp [condClose]
    rw [harr]
    simp only [scanTok, tokAt_marker '/' y _ hyne hy]
  have hclose :
      scanTok (tokAt '/') (body ++ condClose y ++ q) = some (body, q) := by
    have := scanTok_shift_some (tokAt '/')
      (fun c l hc => tokAt_none_of_head_ne '/' c l hc) body hbody _ _ _ hclose1
    simpa [List.append_assoc] using this
  have hsplit : p ++ condOpen x ++ body ++ condClose y ++ q =
      p ++ (condOpen x ++ (body ++ condClose y ++ q)) := by
    simp [List.append_assoc]
  rw [cleanupCond, cleanupCond, hsplit]
  conv_lhs => simp only [cleanupCondFuel]
  rw [hopen]
  dsimp only
  rw [hclose]
  dsimp only
  refine congrArg (fun t => p ++ t) ?_
  have hlen : q.length + 10 ≤ (p ++ (condOpen x ++ (body ++ condClose y ++ q))).length := by
    simp [condOpen, condClose]
    omega
  exact cleanupCondFuel_irrel
    (p ++ (condOpen x ++ (body ++ condClose y ++ q))).length q (by omega) _ _
    (by omega) (by omega)

/-- Concrete witness for C10: `A\x7b\x7b#x\x7d\x7dB\x7b\x7b/y\x7d\x7dC` with
mismatched names `x` and `y` loses the whole span, leaving `AC`. -/
theorem claim10_mismatched_cleanup_witness :
    ("x".toList ≠ ([] : List Char)) ∧ ("y".toList ≠ ([] : List Char)) ∧
    rbrace ∉ "x".toList ∧ rbrace ∉ "y".toList ∧
    lbrace ∉ "B".toList ∧ lbrace ∉ "A".toList ∧
    cleanupCond ("A".toList ++ condOpen "x".toList ++ "B".toList ++
        condClose "y".toList ++ "C".toList) =
      "A".toList ++ cleanupCond "C".toList :=
  ⟨by decide, by decide, by decide, by decide, by decide, by decide,
    claim10_mismatched_cleanup "x".toList "y".toList "B".toList "A".toList
      "C".toList (by decide) (by decide) (by decide) (by decide) (by decide)
      (by decide)⟩
